import Mathlib

/-
Shallow embedding of the slfp pipeline-coordination code: record stores,
idempotency tracking, driver loops, the merger, the extraction/filter
helpers and the cleanup routine, together with proofs about them.
Python dict records become structures with optional string fields; JSON
store files become Lean lists; the browser "Agent" becomes an oracle
argument supplying the outcome of each external call.
-/

namespace SLFP

/-- A store record, as persisted in the JSON array files
(collections.json, reversed_collections.json, validated.json).
Absent dict keys are `none`; `item.get(k)` on a missing key yields `none`. -/
structure Record where
  url : Option String := none
  question : Option String := none
  filename : Option String := none
  timestamp : Option String := none
  report_generated : Bool := false
deriving Repr, DecidableEq

/-- Python truthiness of an optional string: `None` and `""` are falsy. -/
def truthy : Option String → Option String
  | none => none
  | some s => if s = "" then none else some s

/-- The identity key of a record, from run_audit_reversed_merged.py:
`item.get("url") or item.get("question") or item.get("filename")` —
first truthy field wins. -/
def identifier (r : Record) : Option String :=
  match truthy r.url with
  | some k => some k
  | none =>
    match truthy r.question with
    | some k => some k
    | none => truthy r.filename

/-- The `existing_identifiers` set built from the primary store: the
truthy identifier of each record, in order (run_audit_reversed_merged.py,
`for item in collections_data: ... existing_identifiers.add(identifier)`). -/
def initialSeen : List Record → List String
  | [] => []
  | r :: rest =>
    match identifier r with
    | some k => k :: initialSeen rest
    | none => initialSeen rest

/-- The merge loop of run_audit_reversed_merged.py: for each record of the
secondary store, append it to the accumulated primary data when its
identifier is truthy and unseen, adding the key to the seen set. -/
def mergeAux : List String → List Record → List Record → List Record
  | _, acc, [] => acc
  | seen, acc, r :: rest =>
    match identifier r with
    | some k =>
      if k ∈ seen then mergeAux seen acc rest
      else mergeAux (k :: seen) (acc ++ [r]) rest
    | none => mergeAux seen acc rest

/-- merge_validated_into_collections (run_audit_reversed_merged.py):
loads both stores, seeds the seen set from the primary, merges the
secondary in, and writes the primary back. -/
def merge_validated_into_collections (primary secondary : List Record) : List Record :=
  mergeAux (initialSeen primary) primary secondary

/-- The records the spec says merge appends: those records of the
secondary store whose identity key is non-empty and not equal to a key of
the primary store or of an earlier appended record, in order. Stated from
the spec's words, for comparison with the code-side `mergeAux`. -/
def specAppends : List String → List Record → List Record
  | _, [] => []
  | seen, r :: rest =>
    match identifier r with
    | some k =>
      if k ∈ seen then specAppends seen rest
      else r :: specAppends (k :: seen) rest
    | none => specAppends seen rest

/-- The pair of store files (collections.json, reversed_collections.json)
acted on by the merger: merge rewrites the primary and only reads the
secondary. -/
def mergeState (s : List Record × List Record) : List Record × List Record :=
  (merge_validated_into_collections s.1 s.2, s.2)

/-- Python `sub in text` on character lists: does `sub` occur as a
contiguous segment of `text`? -/
def containsSub (text sub : List Char) : Bool :=
  match text with
  | [] => sub.isEmpty
  | _ :: rest => sub.isPrefixOf text || containsSub rest sub

/-- Python `sub in text` on strings. -/
def pyIn (sub text : String) : Bool :=
  containsSub text.toList sub.toList

/-- Python str.strip(): drop leading and trailing whitespace. -/
def pyStrip (s : String) : String :=
  String.mk (((s.toList.dropWhile Char.isWhitespace).reverse.dropWhile
    Char.isWhitespace).reverse)

/-- Python str.startswith. -/
def pyStartsWith (s pre : String) : Bool :=
  pre.toList.isPrefixOf s.toList

/-- Python str.endswith. -/
def pyEndsWith (s suf : String) : Bool :=
  suf.toList.isSuffixOf s.toList

/-- Writing a file into a directory listing: creates the name or
overwrites the existing file of that name. -/
def writeFile (files : List String) (name : String) : List String :=
  if name ∈ files then files else files ++ [name]

/-- The positivity check of GetReports.get_report (audit.py lines
188-190): the clipboard text is truthy and contains none of the literal
substrings "NoVulnerability", "#No", "Invalid" (with "NoVulnerability"
checked twice, as in the source). -/
def is_positive_primary (c : String) : Bool :=
  (!(c == "")) &&
    (!(pyIn "NoVulnerability" c) && !(pyIn "#No" c) && !(pyIn "Invalid" c) &&
      !(pyIn "NoVulnerability" c))

/-- The positivity check of GetValidatedReports.get_report
(audit_validation.py lines 185-186): truthy and containing none of
"#NoVulnerability", "#No", "Invalid". -/
def is_positive_validated (c : String) : Bool :=
  (!(c == "")) &&
    (!(pyIn "#NoVulnerability" c) && !(pyIn "#No" c) && !(pyIn "Invalid" c))

/-- The literal tag the extraction regex requires right after the opening
quote: the characters of "[File:". -/
def fileTag : List Char := ['[', 'F', 'i', 'l', 'e', ':']

/-- Scan up to the next double quote: returns the characters before it
and the remainder after it, or `none` when no quote follows (in which
case the lazy regex match fails). -/
def takeUntilQuote : List Char → Option (List Char × List Char)
  | [] => none
  | c :: rest =>
    if c = '"' then some ([], rest)
    else
      match takeUntilQuote rest with
      | some p => some (c :: p.1, p.2)
      | none => none

/-- One step of re.findall over the pattern quote-"[File:"-lazy-body-quote
(questions_generator.py, `r'"(\[File:.*?)"'` with DOTALL): at each
position, match an opening quote followed by the tag, capture lazily up to
the closing quote, and resume after it. The fuel argument bounds the
recursion by the text length; `findQuoted` always supplies enough. -/
def findQuotedAux : Nat → List Char → List (List Char)
  | 0, _ => []
  | _, [] => []
  | fuel + 1, c :: rest =>
    if c = '"' && fileTag.isPrefixOf rest then
      match takeUntilQuote rest with
      | some p => p.1 :: findQuotedAux fuel p.2
      | none => []
    else findQuotedAux fuel rest

/-- All captures of the extraction regex, in order of appearance. -/
def findQuoted (text : List Char) : List (List Char) :=
  findQuotedAux text.length text

/-- GetQuestions.get_question_content (questions_generator.py lines
210-217): re.findall of the quoted "[File:" pattern over the clipboard
text, each capture stripped. -/
def get_question_content (clip : String) : List String :=
  (findQuoted clip.toList).map (fun cs => pyStrip (String.mk cs))

/-- Python str.replace(target, ""), removing every non-overlapping
occurrence of `target` left to right. The fuel argument bounds the
recursion by the text length; `removeAllSub` always supplies enough. -/
def removeAllSubAux (target : List Char) : Nat → List Char → List Char
  | 0, text => text
  | _, [] => []
  | fuel + 1, c :: rest =>
    if !target.isEmpty && target.isPrefixOf (c :: rest) then
      removeAllSubAux target fuel (List.drop (target.length - 1) rest)
    else c :: removeAllSubAux target fuel rest

/-- Python text.replace(target, "") on character lists. -/
def removeAllSub (target text : List Char) : List Char :=
  removeAllSubAux target text.length text

/-- Digits of an ASCII-decimal numeral to its value. -/
def digitsToNat (ds : List Char) : Nat :=
  ds.foldl (fun n c => 10 * n + (c.toNat - '0'.toNat)) 0

/-- Python int(s) as used on the stripped audit filenames: optional
sign followed by ASCII digits, surrounding whitespace allowed; `none`
models a ValueError. -/
def pyInt (s : String) : Option Int :=
  match (pyStrip s).toList with
  | [] => none
  | '-' :: ds =>
    if !ds.isEmpty && ds.all Char.isDigit then some (-(digitsToNat ds : Int))
    else none
  | '+' :: ds =>
    if !ds.isEmpty && ds.all Char.isDigit then some (digitsToNat ds)
    else none
  | ds =>
    if ds.all Char.isDigit then some (digitsToNat ds)
    else none

/-- The numeral part the code extracts from a report filename:
`f.replace("audit_", "").replace(".md", "")` — note this deletes every
occurrence of both substrings (audit.py line 240). -/
def auditNumberString (f : String) : String :=
  String.mk (removeAllSub ".md".toList (removeAllSub "audit_".toList f.toList))

/-- GetReports.get_next_report_number (audit.py lines 225-245; the
validated variant in audit_validation.py is identical up to the directory
name): the directory is an optional file listing (`none` = absent, then
created empty); returns the next number and the directory contents after
the call. -/
def get_next_report_number (dir : Option (List String)) : Int × List String :=
  match dir with
  | none => (1, [])
  | some files =>
    let existing := files.filter (fun f => pyStartsWith f "audit_" && pyEndsWith f ".md")
    if existing.isEmpty then (1, files)
    else
      let numbers := existing.filterMap (fun f => pyInt (auditNumberString f))
      match numbers with
      | [] => (1, files)
      | n :: rest => (rest.foldl max n + 1, files)

/-- The claim's reading of the filename's numeral: the middle left after
removing one leading "audit_" and one trailing ".md". Stated from the
claim's words, for comparison with the code-side `auditNumberString`. -/
def claimMiddle (f : String) : String :=
  (f.drop "audit_".length).dropRight ".md".length

/-- Outcome of one external Agent interaction for a report-retrieval
call: either some exception during the browser steps (caught by the
enclosing try), or the clipboard text obtained (possibly empty). -/
inductive AgentResult
  | error
  | clipboard (content : String)
deriving Repr, DecidableEq

/-- State touched by the audit report-retrieval stage: the
collections.json store and the audits/ report directory (`none` =
directory absent). -/
structure ReportState where
  collections : List Record
  audits : Option (List String)
deriving Repr, DecidableEq

/-- The update loop of mark_report_generated: flip report_generated on
the first record whose url equals the given one (audit.py lines 205-223,
`item.get("url") == url`, break after the first hit). -/
def markFirst (url : String) : List Record → List Record
  | [] => []
  | r :: rest =>
    if r.url = some url then { r with report_generated := true } :: rest
    else r :: markFirst url rest

/-- GetReports.mark_report_generated: no-op on a falsy url, otherwise
update the first matching record. -/
def mark_report_generated (url : String) (data : List Record) : List Record :=
  if url = "" then data else markFirst url data

/-- GetReports.get_report (audit.py lines 167-203): on any exception the
handler logs and leaves everything unchanged; on a clipboard read, a
positive text is written to audits/audit_<next>.md, and in both the
positive and the no-finding/empty branch mark_report_generated runs. -/
def get_report (url : String) (result : AgentResult) (s : ReportState) : ReportState :=
  match result with
  | .error => s
  | .clipboard c =>
    let s1 :=
      if is_positive_primary c then
        let p := get_next_report_number s.audits
        { s with audits := some (writeFile p.2 ("audit_" ++ toString p.1 ++ ".md")) }
      else s
    { s1 with collections := mark_report_generated url s1.collections }

/-- run_report.load_processed_reports: urls of collections records whose
report_generated flag is set. -/
def load_processed_reports (collections : List Record) : List String :=
  collections.foldl
    (fun acc r => if r.report_generated then acc ++ [r.url.getD ""] else acc) []

/-- run_report.get_pending_urls: urls of collections records that are
truthy and not among the processed urls. -/
def run_report_pending (collections : List Record) : List String :=
  let processed := load_processed_reports collections
  (collections.map (fun item => item.url.getD "")).filter
    (fun url => (!(url == "")) && !(processed.contains url))

/-- A questions.json record (questions_generator.py save_to_questions):
one seed prompt with the chat url it was dispatched to and the flag set
once its generated questions have been extracted. -/
structure QuestionsRecord where
  question : Option String := none
  url : Option String := none
  questions_generated : Bool := false
deriving Repr, DecidableEq

/-- State touched by the question-extraction stage: the questions.json
store and the flat all_questions.json list. -/
structure QuestionsState where
  questions : List QuestionsRecord
  all_questions : List String
deriving Repr, DecidableEq

/-- run_questions_generator_questions.get_pending_urls (lines 12-31):
appends `item.get("url", "")` for every record of questions.json —
no filter on questions_generated. -/
def gq_get_pending_urls (data : List QuestionsRecord) : List String :=
  data.map (fun item => item.url.getD "")

/-- GetQuestions.mark_questions_generated: flip questions_generated on
the first record with the given url; no-op on a falsy url. -/
def mark_questions_generated (url : String) (data : List QuestionsRecord) :
    List QuestionsRecord :=
  if url = "" then data
  else
    let rec go : List QuestionsRecord → List QuestionsRecord
      | [] => []
      | r :: rest =>
        if r.url = some url then { r with questions_generated := true } :: rest
        else r :: go rest
    go data

/-- GetQuestions.get_questions (questions_generator.py lines 164-208):
on an exception nothing changes; otherwise the extracted questions are
appended to all_questions.json and the url is marked generated. -/
def get_questions (oracle : String → AgentResult) (url : String)
    (s : QuestionsState) : QuestionsState :=
  match oracle url with
  | .error => s
  | .clipboard c =>
    { questions := mark_questions_generated url s.questions,
      all_questions := s.all_questions ++ get_question_content c }

/-- The main loop of run_questions_generator_questions: process each
pending url, counting every dispatch, and break once the counter
reaches 500. -/
def questionsDriverLoop (oracle : String → AgentResult) :
    List String → Nat → QuestionsState → QuestionsState
  | [], _, s => s
  | url :: rest, counter, s =>
    let s2 := get_questions oracle url s
    let counter2 := counter + 1
    if 500 ≤ counter2 then s2 else questionsDriverLoop oracle rest counter2 s2

/-- One invocation of the question-extraction driver
(run_questions_generator_questions.main). -/
def run_questions_generator_questions (oracle : String → AgentResult)
    (s : QuestionsState) : QuestionsState :=
  questionsDriverLoop oracle (gq_get_pending_urls s.questions) 0 s

/-- The two stores read by the reversed-audit driver; ask_question with
is_reversed=True writes reversed_collections.json only. -/
structure AuditStores where
  collections : List Record
  reversed_collections : List Record
deriving Repr, DecidableEq

/-- run_audit_reversed.load_processed_questions: the question field
(defaulting to "") of every record of collections.json and
reversed_collections.json. -/
def load_processed_questions (st : AuditStores) : List String :=
  (st.collections ++ st.reversed_collections).map (fun item => item.question.getD "")

/-- The record save_to_collections appends for a dispatched question:
url and timestamp from the environment, report_generated false. -/
def mkReversedRecord (q : String) (r : String × String) : Record :=
  { question := some q, url := some r.1, timestamp := some r.2,
    report_generated := false }

/-- Deepwiki.ask_question with is_reversed=True (audit.py lines 64-99):
the oracle yields the resulting (url, timestamp) on success, `none` when
any browser step raised (caught and logged, nothing saved). -/
def ask_question (oracle : String → Option (String × String)) (q : String)
    (st : AuditStores) : AuditStores :=
  match oracle q with
  | none => st
  | some r =>
    { st with reversed_collections := st.reversed_collections ++ [mkReversedRecord q r] }

/-- The main loop of run_audit_reversed (lines 40-55): skip questions in
the processed set, dispatch the rest in order, increment the counter on
every dispatch, and break once it reaches 25. -/
def reversedAuditLoop (oracle : String → Option (String × String)) :
    List String → List String → Nat → AuditStores → AuditStores
  | [], _, _, st => st
  | q :: rest, processed, counter, st =>
    if processed.contains q then reversedAuditLoop oracle rest processed counter st
    else
      let st2 := ask_question oracle q st
      let counter2 := counter + 1
      if 25 ≤ counter2 then st2 else reversedAuditLoop oracle rest processed counter2 st2

/-- One invocation of the reversed-audit driver: questions are iterated
reversed, the processed set is computed once up front. -/
def run_audit_reversed (oracle : String → Option (String × String))
    (questions : List String) (st : AuditStores) : AuditStores :=
  reversedAuditLoop oracle questions.reverse (load_processed_questions st) 0 st

/-- State touched by the validated-report stage: the validated.json store
and the validated/ report directory. -/
structure ValidatedState where
  validated : List Record
  validatedDir : Option (List String)
deriving Repr, DecidableEq

/-- GetValidatedReports.get_report (audit_validation.py lines 164-200):
as the primary variant but with the narrower no-finding set and the
validated/ directory. -/
def gv_get_report (url : String) (result : AgentResult) (s : ValidatedState) :
    ValidatedState :=
  match result with
  | .error => s
  | .clipboard c =>
    let s1 :=
      if is_positive_validated c then
        let p := get_next_report_number s.validatedDir
        { s with validatedDir := some (writeFile p.2 ("audit_" ++ toString p.1 ++ ".md")) }
      else s
    { s1 with validated := mark_report_generated url s1.validated }

/-- The main loop of run_validator_report (lines 63-78): every pending
url is dispatched; there is no counter and no cap. -/
def validatorReportLoop (oracle : String → AgentResult) :
    List String → ValidatedState → ValidatedState
  | [], s => s
  | url :: rest, s => validatorReportLoop oracle rest (gv_get_report url (oracle url) s)

/-- A store file on disk: absent, or present with raw text content. -/
inductive FileState
  | absent
  | present (content : String)
deriving Repr, DecidableEq

/-- The load portion of Deepwiki.save_to_collections (audit.py lines
111-121): absent file or whitespace-only content give an empty array;
json.loads failure (the `parse` oracle returning `none`) is caught with a
printed warning (the returned flag) and an empty array. -/
def loadStoreData (parse : String → Option (List Record)) (fs : FileState) :
    List Record × Bool :=
  match fs with
  | .absent => ([], false)
  | .present content =>
    let stripped := pyStrip content
    if stripped = "" then ([], false)
    else
      match parse stripped with
      | some data => (data, false)
      | none => ([], true)

/-- questions.get_questions (questions.py lines 6-12): a bare except
turns any failure — missing file or json.load error — into an empty
list. -/
def get_questions_load (parse : String → Option (List String)) (fs : FileState) :
    List String :=
  match fs with
  | .absent => []
  | .present content => (parse content).getD []

/-- The filesystem state clean_up acts on: the two report directories
(`none` = absent) and the three JSON stores. -/
structure CleanupFS where
  audits : Option (List String)
  validated : Option (List String)
  collections_store : List Record
  validated_store : List Record
  reversed_store : List Record
deriving Repr, DecidableEq

/-- Which filesystem operations raise during a clean_up run. -/
structure FailSpec where
  removeFails : String → Bool
  makedirsFails : Bool
  moveFails : String → Bool
  writeFails : String → Bool

/-- Step 1 loop of clean_up: delete each file of audits/ in turn; a
failing os.remove raises, so the failed file and all later ones stay
(returns the remaining listing and whether the loop finished). -/
def deleteLoop (o : FailSpec) : List String → List String × Bool
  | [] => ([], true)
  | f :: rest =>
    if o.removeFails f then (f :: rest, false)
    else deleteLoop o rest

/-- Step 2 loop of clean_up: move each file of validated/ into audits/;
a failing shutil.move raises, leaving the failed file and all later ones
behind (returns remaining validated listing, audits listing, finished?). -/
def moveLoop (o : FailSpec) : List String → List String → List String × List String × Bool
  | [], audits => ([], audits, true)
  | f :: rest, audits =>
    if o.moveFails f then (f :: rest, audits, false)
    else moveLoop o rest (writeFile audits f)

/-- Step 3 of clean_up: truncate the three stores to empty arrays in
order; a failing write raises, leaving the later stores untouched. -/
def truncateStores (o : FailSpec) (fs : CleanupFS) : CleanupFS × Bool :=
  if o.writeFails "collections.json" then (fs, false)
  else
    let fs1 := { fs with collections_store := ([] : List Record) }
    if o.writeFails "validated.json" then (fs1, false)
    else
      let fs2 := { fs1 with validated_store := ([] : List Record) }
      if o.writeFails "reversed_collections.json" then (fs2, false)
      else ({ fs2 with reversed_store := ([] : List Record) }, true)

/-- Steps 2-3 of clean_up: move validated/ into audits/ when the
directory exists (otherwise just a printed note), then truncate. -/
def moveValidated (o : FailSpec) (fs : CleanupFS) : CleanupFS × Bool :=
  match fs.validated with
  | none => truncateStores o fs
  | some vfiles =>
    let r := moveLoop o vfiles (fs.audits.getD [])
    let fs1 := { fs with validated := some r.1, audits := some r.2.1 }
    if r.2.2 then truncateStores o fs1 else (fs1, false)

/-- run_clean_up.clean_up (lines 11-57): the whole body sits in one
try/except, so the first raising operation aborts every later step and
the handler prints the error; the Bool is true when the final success
message printed, false when the except branch ran. The function itself
always returns — nothing propagates to the caller. -/
def clean_up (o : FailSpec) (fs : CleanupFS) : CleanupFS × Bool :=
  match fs.audits with
  | some files =>
    let r := deleteLoop o files
    let fs1 := { fs with audits := some r.1 }
    if r.2 then moveValidated o fs1 else (fs1, false)
  | none =>
    if o.makedirsFails then (fs, false)
    else moveValidated o { fs with audits := some [] }

/-- A run where only removing audits/a.md fails. -/
def c8Fail : FailSpec :=
  { removeFails := fun f => f == "a.md", makedirsFails := false,
    moveFails := fun _ => false, writeFails := fun _ => false }

/-- A filesystem with two stale reports, one validated report and a
non-empty collections store. -/
def c8FS : CleanupFS :=
  { audits := some ["a.md", "b.md"], validated := some ["v.md"],
    collections_store := [{ url := some "x" }], validated_store := [],
    reversed_store := [] }

/-- A run where creating the audits directory fails and removing a.md
fails. -/
def c8Fail2 : FailSpec :=
  { removeFails := fun f => f == "a.md", makedirsFails := true,
    moveFails := fun _ => false, writeFails := fun _ => false }

/-- A filesystem with no audits directory. -/
def c8FSA : CleanupFS :=
  { audits := none, validated := some ["v.md"],
    collections_store := [{ url := some "x" }], validated_store := [],
    reversed_store := [] }

/-- A filesystem whose audits directory holds the one failing file. -/
def c8FSB : CleanupFS :=
  { audits := some ["a.md"], validated := some ["v.md"],
    collections_store := [{ url := some "x" }], validated_store := [],
    reversed_store := [] }

/-- The records appended for a run of dispatched questions: one per
question whose agent call succeeded, in order. -/
def dispatchedRecords (oracle : String → Option (String × String))
    (items : List String) : List Record :=
  items.filterMap (fun q => (oracle q).map (mkReversedRecord q))

/-- An agent whose clipboard result always holds one quoted "[File:"
question. -/
def c1Oracle : String → AgentResult :=
  fun _ => AgentResult.clipboard "\"[File: a.rs] Q?\""

/-- A questions.json store holding one dispatched, not yet extracted seed
with an empty all_questions.json. -/
def c1State : QuestionsState :=
  { questions := [{ question := some "seed", url := some "u", questions_generated := false }],
    all_questions := [] }

lemma mergeAux_eq_append (rest : List Record) :
    ∀ (seen : List String) (acc : List Record),
      mergeAux seen acc rest = acc ++ specAppends seen rest := by
  induction rest with
  | nil => intro seen acc; simp [mergeAux, specAppends]
  | cons r rest ih =>
    intro seen acc
    cases hid : identifier r with
    | none => simp [mergeAux, specAppends, hid, ih]
    | some k =>
      by_cases hk : k ∈ seen
      · simp [mergeAux, specAppends, hid, hk, ih]
      · simp [mergeAux, specAppends, hid, hk, ih]

lemma initialSeen_append (a b : List Record) :
    initialSeen (a ++ b) = initialSeen a ++ initialSeen b := by
  induction a with
  | nil => simp [initialSeen]
  | cons r rest ih =>
    cases hid : identifier r <;> simp [initialSeen, hid, ih]

lemma mem_initialSeen_mergeAux (rest : List Record) :
    ∀ (seen : List String) (acc : List Record) (k : String),
      k ∈ initialSeen acc → k ∈ initialSeen (mergeAux seen acc rest) := by
  induction rest with
  | nil => intro seen acc k hk; simpa [mergeAux] using hk
  | cons r rest ih =>
    intro seen acc k hk
    cases hid : identifier r with
    | none => simpa [mergeAux, hid] using ih seen acc k hk
    | some k2 =>
      by_cases hk2 : k2 ∈ seen
      · simpa [mergeAux, hid, hk2] using ih seen acc k hk
      · have : k ∈ initialSeen (acc ++ [r]) := by
          rw [initialSeen_append]; exact List.mem_append_left _ hk
        simpa [mergeAux, hid, hk2] using ih (k2 :: seen) (acc ++ [r]) k this

lemma mergeAux_key_complete (rest : List Record) :
    ∀ (seen : List String) (acc : List Record),
      (∀ k ∈ seen, k ∈ initialSeen acc) →
      ∀ r ∈ rest, ∀ k, identifier r = some k →
        k ∈ initialSeen (mergeAux seen acc rest) := by
  induction rest with
  | nil => intro seen acc _ r hr; exact absurd hr (List.not_mem_nil r)
  | cons r2 rest ih =>
    intro seen acc hinv r hr k hk
    cases hid : identifier r2 with
    | none =>
      rcases List.mem_cons.mp hr with heq | hmem
      · subst heq; rw [hid] at hk; cases hk
      · simpa [mergeAux, hid] using ih seen acc hinv r hmem k hk
    | some k2 =>
      by_cases hk2 : k2 ∈ seen
      · rcases List.mem_cons.mp hr with heq | hmem
        · rw [heq] at hk
          rw [hid] at hk
          injection hk with hkk
          have hkseen : k ∈ seen := hkk ▸ hk2
          have : k ∈ initialSeen acc := hinv k hkseen
          simpa [mergeAux, hid, hk2] using
            mem_initialSeen_mergeAux rest seen acc k this
        · simpa [mergeAux, hid, hk2] using ih seen acc hinv r hmem k hk
      · have hinv2 : ∀ k3 ∈ k2 :: seen, k3 ∈ initialSeen (acc ++ [r2]) := by
          intro k3 hk3
          rw [initialSeen_append]
          rcases List.mem_cons.mp hk3 with heq | hmem
          · exact List.mem_append_right _ (by simp [initialSeen, hid, heq])
          · exact List.mem_append_left _ (hinv k3 hmem)
        rcases List.mem_cons.mp hr with heq | hmem
        · rw [heq] at hk
          rw [hid] at hk
          injection hk with hkk
          have : k ∈ initialSeen (acc ++ [r2]) := by
            rw [initialSeen_append]
            apply List.mem_append_right
            simp [initialSeen, hid, hkk]
          simpa [mergeAux, hid, hk2] using
            mem_initialSeen_mergeAux rest (k2 :: seen) (acc ++ [r2]) k this
        · simpa [mergeAux, hid, hk2] using
            ih (k2 :: seen) (acc ++ [r2]) hinv2 r hmem k hk

lemma mergeAux_all_seen (rest : List Record) :
    ∀ (seen : List String) (acc : List Record),
      (∀ r ∈ rest, ∀ k, identifier r = some k → k ∈ seen) →
      mergeAux seen acc rest = acc := by
  induction rest with
  | nil => intro seen acc _; rfl
  | cons r rest ih =>
    intro seen acc hall
    cases hid : identifier r with
    | none =>
      simpa [mergeAux, hid] using
        ih seen acc (fun r2 hr2 k hk => hall r2 (List.mem_cons_of_mem _ hr2) k hk)
    | some k =>
      have hk : k ∈ seen := hall r (List.mem_cons_self r rest) k hid
      simpa [mergeAux, hid, hk] using
        ih seen acc (fun r2 hr2 k2 hk2 => hall r2 (List.mem_cons_of_mem _ hr2) k2 hk2)

lemma reversedAuditLoop_eq (oracle : String → Option (String × String)) :
    ∀ (items processed : List String) (c : Nat) (st : AuditStores),
      c < 25 →
      (∀ q ∈ items, q ∉ processed) →
      reversedAuditLoop oracle items processed c st
        = { st with reversed_collections :=
              st.reversed_collections ++ dispatchedRecords oracle (items.take (25 - c)) } := by
  intro items
  induction items with
  | nil =>
    intro processed c st _ _
    simp [reversedAuditLoop, dispatchedRecords]
  | cons q rest ih =>
    intro processed c st hc hall
    have hq : q ∉ processed := hall q (List.mem_cons_self q rest)
    have hrest : ∀ x ∈ rest, x ∉ processed :=
      fun x hx => hall x (List.mem_cons_of_mem _ hx)
    have htake : 25 - c = (24 - c) + 1 := by omega
    by_cases h25 : 25 ≤ c + 1
    · have hc24 : 24 - c = 0 := by omega
      cases horacle : oracle q with
      | none =>
        simp [reversedAuditLoop, hq, ask_question, horacle, h25, htake, hc24,
          dispatchedRecords]
      | some r =>
        simp [reversedAuditLoop, hq, ask_question, horacle, h25, htake, hc24,
          dispatchedRecords]
    · have hc2 : c + 1 < 25 := by omega
      have h24 : 25 - (c + 1) = 24 - c := by omega
      cases horacle : oracle q with
      | none =>
        have hih := ih processed (c + 1) st hc2 hrest
        simp [reversedAuditLoop, hq, ask_question, horacle, h25, hih, htake, h24,
          dispatchedRecords]
      | some r =>
        have hih := ih processed (c + 1)
          { st with reversed_collections := st.reversed_collections ++ [mkReversedRecord q r] }
          hc2 hrest
        simp [reversedAuditLoop, hq, ask_question, horacle, h25, hih, htake, h24,
          dispatchedRecords]

lemma validatorReportLoop_empty_clip :
    ∀ (urls : List String) (vs : ValidatedState),
      validatorReportLoop (fun _ => AgentResult.clipboard "") urls vs
        = { vs with validated := urls.foldl (fun d u => mark_report_generated u d) vs.validated } := by
  intro urls
  induction urls with
  | nil => intro vs; simp [validatorReportLoop]
  | cons u rest ih =>
    intro vs
    have hneg : is_positive_validated "" = false := rfl
    simp [validatorReportLoop, gv_get_report, hneg, ih]

lemma findQuotedAux_no_match :
    ∀ (fuel : Nat) (text : List Char),
      containsSub text ('"' :: fileTag) = false →
      findQuotedAux fuel text = [] := by
  intro fuel
  induction fuel with
  | zero => intro text _; cases text <;> rfl
  | succ fuel ih =>
    intro text h
    cases text with
    | nil => rfl
    | cons c rest =>
      have hpair : ('"' :: fileTag).isPrefixOf (c :: rest) = false ∧
          containsSub rest ('"' :: fileTag) = false := by
        have h2 := h
        rw [containsSub] at h2
        exact Bool.or_eq_false_iff.mp h2
      by_cases hc : c = '"'
      · have hft : fileTag.isPrefixOf rest = false := by
          have := hpair.1
          rw [hc] at this
          simpa [List.isPrefixOf] using this
        simp [findQuotedAux, hft, ih rest hpair.2]
      · simp [findQuotedAux, hc, ih rest hpair.2]

lemma filterMap_after_filter {α β : Type} (p : α → Bool) (g : α → Option β) (l : List α) :
    (l.filter p).filterMap g = l.filterMap (fun a => if p a then g a else none) := by
  induction l with
  | nil => rfl
  | cons a l ih =>
    by_cases hp : p a <;> simp [hp, ih, List.filter_cons, List.filterMap_cons]

/-- C1: the claimed stage-driver idempotency fails at the
question-extraction stage. get_pending_urls of
run_questions_generator_questions returns every url of questions.json —
it never consults the questions_generated flag that
mark_questions_generated maintains — so it still lists a url whose record
is already marked generated, and an identical second run re-extracts the
same questions and appends duplicates to all_questions.json: two runs
leave ["[File: a.rs] Q?", "[File: a.rs] Q?"] where one run leaves a
single copy. -/
theorem extraction_stage_reruns_completed_urls :
    gq_get_pending_urls
        [{ question := some "seed", url := some "u", questions_generated := true }] = ["u"] ∧
    (run_questions_generator_questions c1Oracle c1State).all_questions
      = ["[File: a.rs] Q?"] ∧
    (run_questions_generator_questions c1Oracle
        (run_questions_generator_questions c1Oracle c1State)).all_questions
      = ["[File: a.rs] Q?", "[File: a.rs] Q?"] := by
  refine ⟨by decide, by decide, by decide⟩

/-- C2 counterexample: an empty clipboard does not leave report_generated
false — get_report reaches mark_report_generated in the else branch as
well, so the record's flag flips to true. -/
theorem empty_clipboard_marks_generated :
    (get_report "u" (.clipboard "")
        { collections := [{ url := some "u", question := some "q", report_generated := false }],
          audits := some [] }).collections
      = [{ url := some "u", question := some "q", report_generated := true }] := by
  decide

/-- C2 (amended): when the agent call raises, get_report leaves the whole
state unchanged — no partial record, the pending set is untouched and the
item is re-dispatched next run; an empty clipboard, however, is handled
as a no-finding result: no report file is written, but
mark_report_generated still runs, so the record's flag becomes true and
the item is not re-dispatched. -/
theorem report_failure_handling (url : String) (s : ReportState) :
    get_report url .error s = s ∧
    run_report_pending (get_report url .error s).collections
      = run_report_pending s.collections ∧
    (get_report url (.clipboard "") s).audits = s.audits ∧
    (get_report url (.clipboard "") s).collections
      = mark_report_generated url s.collections := by
  have hneg : is_positive_primary "" = false := rfl
  refine ⟨rfl, rfl, ?_, ?_⟩
  · simp [get_report, hneg]
  · simp [get_report, hneg]

/-- C3 counterexample: with a pending set of size one whose single
dispatch fails, the reversed-audit driver appends zero records, not
min(1, 25) = 1 — failed dispatches append nothing yet count toward the
cap. -/
theorem batch_cap_counterexample :
    ((["q"].reverse).filter
        (fun q => !((load_processed_questions
          { collections := [], reversed_collections := [] }).contains q))).length = 1 ∧
    (run_audit_reversed (fun _ => none) ["q"]
        { collections := [], reversed_collections := [] }).reversed_collections.length
      ≠ min 1 25 := by
  refine ⟨by decide, by decide⟩

/-- C3 (amended): when every item is pending, the reversed-audit driver
dispatches exactly the first min(m, 25) items — the counter counts every
dispatch, successful or not — and appends one record per successful
dispatch among them; the validated-report driver has no cap and
dispatches every pending url (here observed with an empty-clipboard
agent, which marks each url in turn). -/
theorem batch_cap_amended (oracle : String → Option (String × String))
    (questions : List String) (st : AuditStores)
    (urls : List String) (vs : ValidatedState)
    (h : ∀ q ∈ questions.reverse, q ∉ load_processed_questions st) :
    run_audit_reversed oracle questions st
      = { st with reversed_collections :=
            st.reversed_collections ++ dispatchedRecords oracle (questions.reverse.take 25) } ∧
    validatorReportLoop (fun _ => AgentResult.clipboard "") urls vs
      = { vs with validated :=
            urls.foldl (fun d u => mark_report_generated u d) vs.validated } := by
  constructor
  · have := reversedAuditLoop_eq oracle questions.reverse
      (load_processed_questions st) 0 st (by omega) h
    simpa using this
  · exact validatorReportLoop_empty_clip urls vs

/-- Witness for batch_cap_amended at a one-question run with a succeeding
agent and a one-url validated-report run. -/
theorem batch_cap_amended_witness :
    (∀ q ∈ (["a"] : List String).reverse,
        q ∉ load_processed_questions { collections := [], reversed_collections := [] }) ∧
    (run_audit_reversed (fun q => some (q, "t")) ["a"]
          { collections := [], reversed_collections := [] }
        = { collections := [], reversed_collections :=
              ([] : List Record) ++ dispatchedRecords (fun q => some (q, "t"))
                ((["a"] : List String).reverse.take 25) } ∧
      validatorReportLoop (fun _ => AgentResult.clipboard "") ["u"]
          { validated := [], validatedDir := none }
        = { validated :=
              (["u"] : List String).foldl (fun d u => mark_report_generated u d)
                ([] : List Record),
            validatedDir := none }) :=
  ⟨by decide,
    batch_cap_amended (fun q => some (q, "t")) ["a"]
      { collections := [], reversed_collections := [] } ["u"]
      { validated := [], validatedDir := none } (by decide)⟩

/-- C4: merge appends to the primary exactly the secondary records with a
truthy, unseen identity key, in order, tracking the keys of earlier
appended records; on the spec's example one new record is added and the
duplicate skipped. -/
theorem merge_appends_unseen (primary secondary : List Record) :
    merge_validated_into_collections primary secondary
      = primary ++ specAppends (initialSeen primary) secondary ∧
    merge_validated_into_collections [{ url := some "x" }]
        [{ url := some "x" }, { url := some "y" }]
      = [{ url := some "x" }, { url := some "y" }] :=
  ⟨mergeAux_eq_append secondary (initialSeen primary) primary, by decide⟩

/-- C5: merging twice with the same inputs changes the primary only the
first time, merge only ever appends to the primary (existing records are
preserved unchanged as a prefix), and the secondary store is never
written. -/
theorem merge_idempotent_preserving (A B : List Record) :
    mergeState (mergeState (A, B)) = mergeState (A, B) ∧
    (∃ t, merge_validated_into_collections A B = A ++ t) ∧
    (mergeState (A, B)).2 = B := by
  refine ⟨?_, ⟨specAppends (initialSeen A) B, mergeAux_eq_append B (initialSeen A) A⟩, rfl⟩
  have hM : ∀ r ∈ B, ∀ k, identifier r = some k →
      k ∈ initialSeen (merge_validated_into_collections A B) :=
    fun r hr k hk =>
      mergeAux_key_complete B (initialSeen A) A (fun _ hk2 => hk2) r hr k hk
  have hsecond : merge_validated_into_collections
      (merge_validated_into_collections A B) B
      = merge_validated_into_collections A B :=
    mergeAux_all_seen B (initialSeen (merge_validated_into_collections A B))
      (merge_validated_into_collections A B) hM
  simp [mergeState, hsecond]

/-- C6: loading a store returns an empty sequence without raising
whenever the file is absent, empty, or fails to parse (the JSON parser is
abstracted as an oracle); the parse-failure path of save_to_collections
additionally prints its warning (the returned flag), and the bare-except
loader of questions.py returns empty on the same inputs. -/
theorem store_load_tolerance (parse1 : String → Option (List Record))
    (parse2 : String → Option (List String)) (c : String)
    (h0 : parse2 "" = none) (h1 : pyStrip c ≠ "")
    (h2 : parse1 (pyStrip c) = none) (h3 : parse2 c = none) :
    loadStoreData parse1 .absent = ([], false) ∧
    loadStoreData parse1 (.present "") = ([], false) ∧
    loadStoreData parse1 (.present c) = ([], true) ∧
    get_questions_load parse2 .absent = [] ∧
    get_questions_load parse2 (.present "") = [] ∧
    get_questions_load parse2 (.present c) = [] := by
  refine ⟨rfl, ?_, ?_, rfl, ?_, ?_⟩
  · simp [loadStoreData, pyStrip]
  · simp [loadStoreData, h1, h2]
  · simp [get_questions_load, h0]
  · simp [get_questions_load, h3]

/-- Witness for store_load_tolerance with a parser that rejects
everything and the content "not json". -/
theorem store_load_tolerance_witness :
    ((fun _ : String => (none : Option (List String))) "" = none ∧
      pyStrip "not json" ≠ "" ∧
      (fun _ : String => (none : Option (List Record))) (pyStrip "not json") = none ∧
      (fun _ : String => (none : Option (List String))) "not json" = none) ∧
    (loadStoreData (fun _ => none) .absent = ([], false) ∧
      loadStoreData (fun _ => none) (.present "") = ([], false) ∧
      loadStoreData (fun _ => none) (.present "not json") = ([], true) ∧
      get_questions_load (fun _ => none) .absent = [] ∧
      get_questions_load (fun _ => none) (.present "") = [] ∧
      get_questions_load (fun _ => none) (.present "not json") = []) :=
  ⟨⟨rfl, by decide, rfl, rfl⟩,
    store_load_tolerance (fun _ => none) (fun _ => none) "not json"
      rfl (by decide) rfl rfl⟩

/-- C7: each positivity check is false exactly when the text is empty or
contains one of its no-finding substrings — "NoVulnerability", "#No",
"Invalid" on the primary path and "#NoVulnerability", "#No", "Invalid" on
the validated path — and the spec's three sample inputs classify as
claimed on both paths. -/
theorem filter_positivity (c : String) :
    (is_positive_primary c = false ↔
      (c = "" ∨ pyIn "NoVulnerability" c = true ∨ pyIn "#No" c = true ∨
        pyIn "Invalid" c = true)) ∧
    (is_positive_validated c = false ↔
      (c = "" ∨ pyIn "#NoVulnerability" c = true ∨ pyIn "#No" c = true ∨
        pyIn "Invalid" c = true)) ∧
    is_positive_primary "#NoVulnerability found" = false ∧
    is_positive_validated "#NoVulnerability found" = false ∧
    is_positive_primary "" = false ∧
    is_positive_validated "" = false ∧
    is_positive_primary "## Title\nFound a real bug" = true ∧
    is_positive_validated "## Title\nFound a real bug" = true := by
  refine ⟨?_, ?_, by decide, by decide, by decide, by decide, by decide, by decide⟩
  · cases h0 : (c == "") <;>
      cases h1 : pyIn "NoVulnerability" c <;>
      cases h2 : pyIn "#No" c <;>
      cases h3 : pyIn "Invalid" c <;>
      simp_all [is_positive_primary, beq_iff_eq, beq_eq_false_iff_ne]
  · cases h0 : (c == "") <;>
      cases h1 : pyIn "#NoVulnerability" c <;>
      cases h2 : pyIn "#No" c <;>
      cases h3 : pyIn "Invalid" c <;>
      simp_all [is_positive_validated, beq_iff_eq, beq_eq_false_iff_ne]

/-- C8 counterexample: one failing os.remove does not get skipped — it
aborts the whole reset. With only audits/a.md failing, b.md is not
deleted, validated/v.md is not moved, no store is truncated, and the
run ends in the except branch. -/
theorem cleanup_file_error_aborts_rest :
    (clean_up c8Fail c8FS).1.audits = some ["a.md", "b.md"] ∧
    (clean_up c8Fail c8FS).1.validated = some ["v.md"] ∧
    (clean_up c8Fail c8FS).1.collections_store = [{ url := some "x" }] ∧
    (clean_up c8Fail c8FS).2 = false := by
  refine ⟨by decide, by decide, by decide, by decide⟩

/-- C8 (amended): every cleanup error lands in the single top-level
handler — a directory-creation failure is caught, logged and applied to
nothing (clean_up still returns, so nothing propagates), and a per-file
delete failure likewise aborts all remaining steps of the reset, leaving
it partially applied. -/
theorem cleanup_error_handling_amended (o : FailSpec) (fsA fsB : CleanupFS)
    (files rem : List String)
    (hA : fsA.audits = none) (hmk : o.makedirsFails = true)
    (hB : fsB.audits = some files) (hdel : deleteLoop o files = (rem, false)) :
    clean_up o fsA = (fsA, false) ∧
    clean_up o fsB = ({ fsB with audits := some rem }, false) := by
  constructor
  · simp [clean_up, hA, hmk]
  · simp [clean_up, hB, hdel]

/-- Witness for cleanup_error_handling_amended with a failing makedirs
and one failing file delete. -/
theorem cleanup_error_handling_amended_witness :
    (c8FSA.audits = none ∧ c8Fail2.makedirsFails = true ∧
      c8FSB.audits = some ["a.md"] ∧ deleteLoop c8Fail2 ["a.md"] = (["a.md"], false)) ∧
    (clean_up c8Fail2 c8FSA = (c8FSA, false) ∧
      clean_up c8Fail2 c8FSB = ({ c8FSB with audits := some ["a.md"] }, false)) :=
  ⟨⟨rfl, rfl, rfl, by decide⟩,
    cleanup_error_handling_amended c8Fail2 c8FSA c8FSB ["a.md"] ["a.md"]
      rfl rfl rfl (by decide)⟩

/-- C9: extraction never raises (it is a total function); when the text
nowhere contains a quote followed by the "[File:" tag it returns the
empty sequence, and on a text with three quoted "[File:" segments — two
of them identical — it returns exactly the three stripped segments in
source order, duplicates preserved. -/
theorem extraction_behavior (text : List Char)
    (h : containsSub text ('"' :: fileTag) = false) :
    findQuoted text = [] ∧
    get_question_content
        "Here: \"[File: a.rs] Q1?\" and \"[File: b.rs] Q2?\" again \"[File: a.rs] Q1?\" end"
      = ["[File: a.rs] Q1?", "[File: b.rs] Q2?", "[File: a.rs] Q1?"] ∧
    get_question_content "no file tags here \"quoted\" text" = [] :=
  ⟨findQuotedAux_no_match text.length text h, by decide, by decide⟩

/-- Witness for extraction_behavior on a tag-free text. -/
theorem extraction_behavior_witness :
    containsSub "plain text with no tags".toList ('"' :: fileTag) = false ∧
    (findQuoted "plain text with no tags".toList = [] ∧
      get_question_content
          "Here: \"[File: a.rs] Q1?\" and \"[File: b.rs] Q2?\" again \"[File: a.rs] Q1?\" end"
        = ["[File: a.rs] Q1?", "[File: b.rs] Q2?", "[File: a.rs] Q1?"] ∧
      get_question_content "no file tags here \"quoted\" text" = []) :=
  ⟨by decide, extraction_behavior "plain text with no tags".toList (by decide)⟩

/-- C10 counterexample: the directory whose only file is
audit_5.md.md contains no file whose middle — one "audit_" prefix and one
".md" suffix removed — parses as an integer, yet get_next_report_number
returns 6, not 1: the code deletes every occurrence of "audit_" and
".md", turning "audit_5.md.md" into "5". -/
theorem report_numbering_replace_all :
    pyInt (claimMiddle "audit_5.md.md") = none ∧
    (get_next_report_number (some ["audit_5.md.md"])).1 = 6 ∧
    (get_next_report_number (some ["audit_5.md.md"])).1 ≠ 1 := by
  refine ⟨by decide, by decide, by decide⟩

/-- C10 (amended): a missing directory is created and 1 returned; for an
existing directory each file starting with "audit_" and ending with ".md"
is numbered by deleting all occurrences of "audit_" and ".md" and parsing
the remainder, filenames whose remainder does not parse are ignored, the
result is 1 when no file yields a number and max + 1 otherwise. -/
theorem report_numbering_amended (files : List String)
    (h : files.filterMap
        (fun f => if pyStartsWith f "audit_" && pyEndsWith f ".md"
          then pyInt (auditNumberString f) else none) = []) :
    (get_next_report_number none).1 = 1 ∧
    (get_next_report_number none).2 = [] ∧
    (get_next_report_number (some files)).1 = 1 ∧
    (get_next_report_number
        (some ["audit_1.md", "audit_3.md", "notes.txt", "audit_x.md"])).1 = 4 := by
  have hnum : (files.filter
      (fun f => pyStartsWith f "audit_" && pyEndsWith f ".md")).filterMap
      (fun f => pyInt (auditNumberString f)) = [] := by
    rw [filterMap_after_filter]; exact h
  refine ⟨rfl, rfl, ?_, by decide⟩
  by_cases hex : (files.filter
      (fun f => pyStartsWith f "audit_" && pyEndsWith f ".md")).isEmpty
  · simp [get_next_report_number, hex]
  · simp [get_next_report_number, hex, hnum]

/-- Witness for report_numbering_amended on a directory holding only a
non-conforming file. -/
theorem report_numbering_amended_witness :
    (["readme.txt"] : List String).filterMap
        (fun f => if pyStartsWith f "audit_" && pyEndsWith f ".md"
          then pyInt (auditNumberString f) else none) = [] ∧
    ((get_next_report_number none).1 = 1 ∧
      (get_next_report_number none).2 = [] ∧
      (get_next_report_number (some ["readme.txt"])).1 = 1 ∧
      (get_next_report_number
          (some ["audit_1.md", "audit_3.md", "notes.txt", "audit_x.md"])).1 = 4) :=
  ⟨by decide, report_numbering_amended ["readme.txt"] (by decide)⟩

end SLFP
